import Mathlib

/-!
# Verification of the airplane boarding-time simulator

Shallow embedding of `time_simulator.py` from the `boardings` repository.

Conventions of the embedding:
* A seat `f"{row:02d}{letter}"` is represented by the pair `(row, col)` where
  `col` is the 0-based column index (letter `chr(ord('A') + col)`).  For the
  cabin shapes in scope (`rows ≤ 50`, so two-digit row numbers, `columns ≤ 26`)
  the string form round-trips with this pair, string prefix tests on the first
  two characters coincide with row equality, and indexing character 2
  coincides with the column letter.
* `np.random.exponential(mean)` is modelled by inverse-transform sampling:
  the call consumes the next value `u` of a stream `exps : Nat → ℚ` of
  standard (mean-1) exponential draws and returns `mean * u`.  Successive
  calls consume successive stream positions, in program order.
* `np.random.shuffle` is modelled by an oracle that, at its `i`-th call site,
  replaces a list by some permutation of it (`RandomSource` below).
* The Python dict `seated_passengers` (all values `True`) is modelled as a
  list of seats in insertion order with insert-if-absent, matching dict key
  semantics; only membership and per-row counting are ever used.
-/

/-- `TIME_LUGGAGE = 30`: mean of the exponential luggage-placement delay. -/
def TIME_LUGGAGE : ℚ := 30

/-- `TIME_SITTING_BLOCKED = 30`: base mean of the blocked-sitting delay. -/
def TIME_SITTING_BLOCKED : ℚ := 30

/-- `TIME_PER_BLOCKING_PERSON = 15`: additional mean per blocking person. -/
def TIME_PER_BLOCKING_PERSON : ℚ := 15

/-- `TIME_EXTRA_LUGGAGE = 15`: mean of the last-in-row luggage-organization delay. -/
def TIME_EXTRA_LUGGAGE : ℚ := 15

/-- The `BoardingMethod` enum of `time_simulator.py` (five members). -/
inductive BoardingMethod where
  | RANDOM
  | ROW_RANDOM
  | BACK_TO_FRONT
  | WINDOW_MIDDLE_AISLE
  | STEFFEN
deriving DecidableEq, Repr, Fintype

/-- The string value attached to each enum member in the source. -/
def BoardingMethod.value : BoardingMethod → String
  | .RANDOM => "Random"
  | .ROW_RANDOM => "Row Random"
  | .BACK_TO_FRONT => "Back to Front"
  | .WINDOW_MIDDLE_AISLE => "Window-Middle-Aisle"
  | .STEFFEN => "Steffen Algorithm"

/-- The list of all enum members, in declaration order. -/
def BoardingMethod.all : List BoardingMethod :=
  [.RANDOM, .ROW_RANDOM, .BACK_TO_FRONT, .WINDOW_MIDDLE_AISLE, .STEFFEN]

/-- A seat `f"{row:02d}{letter}"`: `row` is 1-based, `col` is the 0-based
column index of the letter. -/
structure Seat where
  row : Nat
  col : Nat
deriving DecidableEq, Repr

/-- The column letter for a 0-based column index (`chr(ord('A') + i)`). -/
def letterOf (c : Nat) : Char := Char.ofNat (65 + c)

/-- One row's seats in column order (`[f"{row:02d}{letter}" for letter in column_letters]`). -/
def rowSeats (numColumns : Nat) (row : Nat) : List Seat :=
  (List.range numColumns).map (fun c => ⟨row, c⟩)

/-- `all_seats` of `simulate_boarding_time`: row-major over rows 1..num_rows
and the first `num_columns` column letters. -/
def allSeats (numRows numColumns : Nat) : List Seat :=
  (List.range' 1 numRows).flatMap (rowSeats numColumns)

/-- Contribution of one seated passenger's letter to the blocking count of a
target seat's letter, following the if/elif chains of
`_count_blocking_passengers` literally. -/
def blockContrib (seatLetter seatedLetter : Char) : Nat :=
  if seatLetter = 'A' ∨ seatLetter = 'B' then
    if seatedLetter = 'B' ∧ seatLetter = 'A' then 1
    else if seatedLetter = 'C' ∧ (seatLetter = 'A' ∨ seatLetter = 'B') then 1
    else 0
  else if seatLetter = 'E' ∨ seatLetter = 'F' then
    if seatedLetter = 'E' ∧ seatLetter = 'F' then 1
    else if seatedLetter = 'D' ∧ (seatLetter = 'E' ∨ seatLetter = 'F') then 1
    else 0
  else 0

/-- `_count_blocking_passengers(seat, seated_passengers)`: iterate over the
occupancy and add the contribution of every occupant of the same row.
(The source's `startswith(f"{row_num:02d}")` test equals row equality for
two-digit rows.) -/
def countBlockingPassengers (seat : Seat) (seated : List Seat) : Nat :=
  seated.foldl
    (fun acc s =>
      if s.row = seat.row then acc + blockContrib (letterOf seat.col) (letterOf s.col)
      else acc)
    0

/-- `_is_last_passenger_in_row(seat, boarding_order, seated_passengers, num_columns)`
(the `boarding_order` parameter is unused in the source): after this passenger
sits they are the last in the row iff `seated_in_row + 1 == num_columns`. -/
def isLastPassengerInRow (seat : Seat) (seated : List Seat) (numColumns : Nat) : Bool :=
  seated.countP (fun s => decide (s.row = seat.row)) + 1 = numColumns

/-- Dict insertion `seated_passengers[seat] = True`: a repeated key leaves the
key set unchanged, a fresh key is appended in insertion order. -/
def insertSeat (seated : List Seat) (s : Seat) : List Seat :=
  if s ∈ seated then seated else seated ++ [s]

/-- State threaded through the loop of `_simulate_aisle_boarding`:
running total, occupancy, and the next position in the exponential stream. -/
structure ClockState where
  total : ℚ
  seated : List Seat
  k : Nat

/-- One iteration of the passenger loop of `_simulate_aisle_boarding`:
luggage draw (always), blocked-sitting draw (iff `blocking_count > 0`),
extra-luggage draw (iff last passenger in the row), then mark seated. -/
def boardOne (exps : Nat → ℚ) (numColumns : Nat) (st : ClockState) (seat : Seat) : ClockState :=
  let bc := countBlockingPassengers seat st.seated
  let last := isLastPassengerInRow seat st.seated numColumns
  let luggage : ℚ := TIME_LUGGAGE * exps st.k
  let sitting : ℚ :=
    if 0 < bc then (TIME_SITTING_BLOCKED + (bc : ℚ) * TIME_PER_BLOCKING_PERSON) * exps (st.k + 1)
    else 0
  let sitDraws : Nat := if 0 < bc then 1 else 0
  let extra : ℚ :=
    if last then TIME_EXTRA_LUGGAGE * exps (st.k + 1 + sitDraws) else 0
  let extraDraws : Nat := if last then 1 else 0
  { total := st.total + (luggage + sitting + extra)
    seated := insertSeat st.seated seat
    k := st.k + 1 + sitDraws + extraDraws }

/-- `_simulate_aisle_boarding(boarding_order, num_rows, num_columns)`
(`num_rows` is unused in the source body). -/
def simulateAisleBoarding (boardingOrder : List Seat) (numRows numColumns : Nat)
    (exps : Nat → ℚ) : ℚ :=
  (boardingOrder.foldl (boardOne exps numColumns) ⟨0, [], 0⟩).total

/-- The randomness consumed by one call of `simulate_boarding_time`:
indexed shuffle oracles (one index per `np.random.shuffle` call site) that
permute their argument, and the stream of standard exponential draws. -/
structure RandomSource where
  shuffleSeats : Nat → List Seat → List Seat
  shuffleRows : Nat → List Nat → List Nat
  exps : Nat → ℚ
  shuffleSeats_perm : ∀ i l, (shuffleSeats i l).Perm l
  shuffleRows_perm : ∀ i l, (shuffleRows i l).Perm l

/-- `_random_boarding(seats)`: a shuffled copy of `seats`. -/
def randomBoarding (src : RandomSource) (seats : List Seat) : List Seat :=
  src.shuffleSeats 0 seats

/-- The seats of one row that are present in `seats`, in column order
(the inner letter loop with its `if seat in seats` test). -/
def seatsInRow (seats : List Seat) (numColumns : Nat) (row : Nat) : List Seat :=
  (rowSeats numColumns row).filter (fun s => decide (s ∈ seats))

/-- `_back_to_front_boarding(seats, num_rows, num_columns)`: rows from
`num_rows` down to 1, letters in natural order. -/
def backToFrontBoarding (seats : List Seat) (numRows numColumns : Nat) : List Seat :=
  (List.range' 1 numRows).reverse.flatMap (seatsInRow seats numColumns)

/-- `_row_random_boarding(seats, num_rows, num_columns)`: shuffle the row
list, then shuffle each row's seats (the `i`-th row uses shuffle call `i`). -/
def rowRandomBoarding (src : RandomSource) (seats : List Seat)
    (numRows numColumns : Nat) : List Seat :=
  let rows := src.shuffleRows 0 (List.range' 1 numRows)
  rows.enum.flatMap (fun p => src.shuffleSeats p.1 (seatsInRow seats numColumns p.2))

/-- The `seat_priority` table `{"A":1,"F":1,"B":2,"E":2,"C":3,"D":3}` with
`.get(letter, 3)` defaulting every other letter to 3. -/
def seatPriority (c : Char) : Nat :=
  if c = 'A' ∨ c = 'F' then 1
  else if c = 'B' ∨ c = 'E' then 2
  else 3

/-- One row's seats of a given priority tier that are present in `seats`,
in column order (the inner letter loop of the window-middle-aisle and
Steffen generators). -/
def tierSeatsInRow (seats : List Seat) (numColumns priority : Nat) (row : Nat) : List Seat :=
  ((rowSeats numColumns row).filter
      (fun s => decide (seatPriority (letterOf s.col) = priority))).filter
    (fun s => decide (s ∈ seats))

/-- `_window_middle_aisle_boarding(seats, num_rows, num_columns)`: priorities
1, 2, 3; within a priority, rows 1..num_rows; within a row, column order. -/
def windowMiddleAisleBoarding (seats : List Seat) (numRows numColumns : Nat) : List Seat :=
  [1, 2, 3].flatMap (fun priority =>
    (List.range' 1 numRows).flatMap (fun row =>
      tierSeatsInRow seats numColumns priority row))

/-- `_steffen_boarding(seats, num_rows, num_columns)`: first the odd rows
back to front by priority tier, then the even rows back to front by tier. -/
def steffenBoarding (seats : List Seat) (numRows numColumns : Nat) : List Seat :=
  ([1, 2, 3].flatMap (fun priority =>
    (List.range' 1 numRows).reverse.flatMap (fun row =>
      if row % 2 = 1 then tierSeatsInRow seats numColumns priority row else [])))
  ++ ([1, 2, 3].flatMap (fun priority =>
    (List.range' 1 numRows).reverse.flatMap (fun row =>
      if row % 2 = 0 then tierSeatsInRow seats numColumns priority row else [])))

/-- The sequencer step of `simulate_boarding_time`: dispatch on the method.
The source's trailing `raise ValueError` guards arguments outside the enum
and is unreachable for enum-typed input, which the closed inductive type
captures. -/
def boardingOrderFor (method : BoardingMethod) (numRows numColumns : Nat)
    (src : RandomSource) : List Seat :=
  let seats := allSeats numRows numColumns
  match method with
  | .RANDOM => randomBoarding src seats
  | .ROW_RANDOM => rowRandomBoarding src seats numRows numColumns
  | .BACK_TO_FRONT => backToFrontBoarding seats numRows numColumns
  | .WINDOW_MIDDLE_AISLE => windowMiddleAisleBoarding seats numRows numColumns
  | .STEFFEN => steffenBoarding seats numRows numColumns

/-- `simulate_boarding_time(method, num_rows, num_columns)`. -/
def simulate_boarding_time (method : BoardingMethod) (numRows numColumns : Nat)
    (src : RandomSource) : ℚ :=
  simulateAisleBoarding (boardingOrderFor method numRows numColumns src)
    numRows numColumns src.exps

/-- A concrete random source: identity shuffles and an all-ones exponential
stream (every draw equals its mean). -/
def idRandomSource : RandomSource where
  shuffleSeats := fun _ l => l
  shuffleRows := fun _ l => l
  exps := fun _ => 1
  shuffleSeats_perm := fun _ l => List.Perm.refl l
  shuffleRows_perm := fun _ l => List.Perm.refl l

/-!
## Cost decomposition of the Boarding Clock

`costList` restates the passenger loop as an explicit list of per-passenger
costs: each passenger pays one luggage draw (mean `TIME_LUGGAGE`), plus,
iff blocked, one sitting draw (mean `TIME_SITTING_BLOCKED +
blocking_count * TIME_PER_BLOCKING_PERSON`), plus, iff last in the row,
one extra-luggage draw (mean `TIME_EXTRA_LUGGAGE`).
-/

/-- The cost of seating `seat` against occupancy `seated`, with the
exponential stream standing at position `k`. -/
def seatCost (exps : Nat → ℚ) (numColumns : Nat) (seated : List Seat) (k : Nat)
    (seat : Seat) : ℚ :=
  TIME_LUGGAGE * exps k
    + (if 0 < countBlockingPassengers seat seated then
        (TIME_SITTING_BLOCKED + (countBlockingPassengers seat seated : ℚ) *
          TIME_PER_BLOCKING_PERSON) * exps (k + 1)
      else 0)
    + (if isLastPassengerInRow seat seated numColumns then
        TIME_EXTRA_LUGGAGE *
          exps (k + 1 + (if 0 < countBlockingPassengers seat seated then 1 else 0))
      else 0)

/-- How many exponential draws seating `seat` consumes. -/
def seatDraws (numColumns : Nat) (seated : List Seat) (seat : Seat) : Nat :=
  1 + (if 0 < countBlockingPassengers seat seated then 1 else 0)
    + (if isLastPassengerInRow seat seated numColumns then 1 else 0)

/-- The list of per-passenger costs of a boarding order, replayed from
occupancy `seated` and stream position `k`. -/
def costList (exps : Nat → ℚ) (numColumns : Nat) :
    List Seat → List Seat → Nat → List ℚ
  | [], _, _ => []
  | s :: rest, seated, k =>
    seatCost exps numColumns seated k s ::
      costList exps numColumns rest (insertSeat seated s)
        (k + seatDraws numColumns seated s)

theorem boardOne_eq (exps : Nat → ℚ) (numColumns : Nat) (st : ClockState) (s : Seat) :
    boardOne exps numColumns st s =
      ⟨st.total + seatCost exps numColumns st.seated st.k s,
        insertSeat st.seated s,
        st.k + seatDraws numColumns st.seated s⟩ := by
  simp only [boardOne, seatCost, seatDraws]
  split_ifs <;> rfl

theorem foldl_boardOne_total (exps : Nat → ℚ) (numColumns : Nat)
    (rest : List Seat) (st : ClockState) :
    (rest.foldl (boardOne exps numColumns) st).total =
      st.total + (costList exps numColumns rest st.seated st.k).sum := by
  induction rest generalizing st with
  | nil => simp [costList]
  | cons s rest ih =>
    rw [List.foldl_cons, boardOne_eq, ih]
    simp [costList]
    ring

theorem simulateAisleBoarding_eq_costSum (boardingOrder : List Seat)
    (numRows numColumns : Nat) (exps : Nat → ℚ) :
    simulateAisleBoarding boardingOrder numRows numColumns exps =
      (costList exps numColumns boardingOrder [] 0).sum := by
  have h := foldl_boardOne_total exps numColumns boardingOrder ⟨0, [], 0⟩
  simpa [simulateAisleBoarding] using h

/-- Modelled from the spec claim C1: the total as a sum of only the
unconditional luggage term and the conditional blocking term, with no other
cost contribution. -/
def specLuggageBlockingCosts (exps : Nat → ℚ) :
    List Seat → List Seat → Nat → List ℚ
  | [], _, _ => []
  | s :: rest, seated, k =>
    (TIME_LUGGAGE * exps k
      + (if 0 < countBlockingPassengers s seated then
          (TIME_SITTING_BLOCKED + (countBlockingPassengers s seated : ℚ) *
            TIME_PER_BLOCKING_PERSON) * exps (k + 1)
        else 0)) ::
      specLuggageBlockingCosts exps rest (insertSeat seated s)
        (k + 1 + (if 0 < countBlockingPassengers s seated then 1 else 0))

/-- C1 (corrected): for every boarding order and cabin shape, the Boarding
Clock returns exactly the sum, over the seats of the order processed in
sequence, of (i) one unconditional exponential luggage delay with mean 30,
(ii) when `blocking_count > 0` one exponential delay with mean
`30 + blocking_count * 15` (zero otherwise), and (iii) when the seat is the
last of its row to be occupied, one exponential extra-luggage delay with
mean 15 (zero otherwise) — and no other cost term contributes. -/
theorem C1_total_is_sum_of_per_passenger_costs (boardingOrder : List Seat)
    (numRows numColumns : Nat) (exps : Nat → ℚ) :
    simulateAisleBoarding boardingOrder numRows numColumns exps =
      (costList exps numColumns boardingOrder [] 0).sum :=
  simulateAisleBoarding_eq_costSum boardingOrder numRows numColumns exps

/-- C1 counterexample: for the one-seat cabin with every exponential draw
fixed to its mean, the Boarding Clock returns 45 (luggage 30 plus
extra-luggage 15), not the 30 that the luggage-and-blocking-only sum of the
claim yields: a third cost term does contribute. -/
theorem C1_counterexample :
    simulateAisleBoarding [⟨1, 0⟩] 1 1 (fun _ => 1) ≠
      (specLuggageBlockingCosts (fun _ => 1) [⟨1, 0⟩] [] 0).sum := by
  norm_num [simulateAisleBoarding, boardOne, specLuggageBlockingCosts,
    countBlockingPassengers, isLastPassengerInRow, insertSeat, TIME_LUGGAGE,
    TIME_EXTRA_LUGGAGE, TIME_SITTING_BLOCKED, TIME_PER_BLOCKING_PERSON]

/-- C9: the Boarding Clock applied to an empty boarding order returns zero
total time; it is a total function, so no error is signalled. -/
theorem C9_empty_order_zero_time (numRows numColumns : Nat) (exps : Nat → ℚ) :
    simulateAisleBoarding [] numRows numColumns exps = 0 := rfl

/-!
## The blocking table

For the canonical `A B C | D E F` layout, `_count_blocking_passengers`
realises the reference table: A is blocked by B and C, B by C, C and D by
nobody, E by D, F by D and E.
-/

/-- The reference table of blocking letters: occupants of these letters block
the given seat letter. -/
def blockersOf (c : Char) : List Char :=
  if c = 'A' then ['B', 'C']
  else if c = 'B' then ['C']
  else if c = 'E' then ['D']
  else if c = 'F' then ['D', 'E']
  else []

theorem blockContrib_eq (c1 c2 : Char) :
    blockContrib c1 c2 = if c2 ∈ blockersOf c1 then 1 else 0 := by
  unfold blockContrib blockersOf
  split_ifs <;> simp_all

theorem countBlocking_foldl_aux (seat : Seat) (seated : List Seat) (acc : Nat) :
    seated.foldl
      (fun acc s =>
        if s.row = seat.row then acc + blockContrib (letterOf seat.col) (letterOf s.col)
        else acc)
      acc =
      acc + seated.countP (fun s =>
        decide (s.row = seat.row ∧ letterOf s.col ∈ blockersOf (letterOf seat.col))) := by
  induction seated generalizing acc with
  | nil => simp
  | cons s t ih =>
    simp only [List.foldl_cons, List.countP_cons, ih]
    by_cases hrow : s.row = seat.row <;>
      by_cases hmem : letterOf s.col ∈ blockersOf (letterOf seat.col) <;>
        simp [hrow, hmem, blockContrib_eq] <;> omega

/-- `_count_blocking_passengers` counts exactly the same-row occupants whose
letter is in the seat's blocker set. -/
theorem countBlocking_eq_countP (seat : Seat) (seated : List Seat) :
    countBlockingPassengers seat seated =
      seated.countP (fun s =>
        decide (s.row = seat.row ∧ letterOf s.col ∈ blockersOf (letterOf seat.col))) := by
  have h := countBlocking_foldl_aux seat seated 0
  simpa [countBlockingPassengers] using h

/-- C3: `blocking_count` is a pure function of the queried seat and the
occupancy (invariant under reordering of the occupancy), matches the
reference table A←{B,C}, B←{C}, C←∅, D←∅, E←{D}, F←{D,E} (as a same-row
occupant count over the blocker set), and on the concrete instances:
seat "07A" with occupancy {"07B","07C"} yields 2, seat "07C" with any
occupancy yields 0, and seat "07F" with occupancy {"07D"} yields 1. -/
theorem C3_blocking_count_table :
    (∀ (seat : Seat) (l1 l2 : List Seat), l1.Perm l2 →
        countBlockingPassengers seat l1 = countBlockingPassengers seat l2)
    ∧ (∀ (seat : Seat) (seated : List Seat),
        countBlockingPassengers seat seated =
          seated.countP (fun s =>
            decide (s.row = seat.row ∧ letterOf s.col ∈ blockersOf (letterOf seat.col))))
    ∧ countBlockingPassengers ⟨7, 0⟩ [⟨7, 1⟩, ⟨7, 2⟩] = 2
    ∧ (∀ seated : List Seat, countBlockingPassengers ⟨7, 2⟩ seated = 0)
    ∧ countBlockingPassengers ⟨7, 5⟩ [⟨7, 3⟩] = 1 := by
  refine ⟨?_, countBlocking_eq_countP, by decide, ?_, by decide⟩
  · intro seat l1 l2 hp
    rw [countBlocking_eq_countP, countBlocking_eq_countP]
    exact hp.countP_eq _
  · intro seated
    rw [countBlocking_eq_countP]
    simp [letterOf, blockersOf]

/-- C3 witness: the permutation-invariance clause at a concrete occupancy. -/
theorem C3_blocking_count_table_witness :
    countBlockingPassengers ⟨7, 0⟩ [⟨7, 1⟩, ⟨7, 2⟩] =
      countBlockingPassengers ⟨7, 0⟩ [⟨7, 2⟩, ⟨7, 1⟩] :=
  C3_blocking_count_table.1 ⟨7, 0⟩ [⟨7, 1⟩, ⟨7, 2⟩] [⟨7, 2⟩, ⟨7, 1⟩] (by decide)

/-!
## Structure of the seat grid
-/

theorem mem_rowSeats {numColumns row : Nat} {s : Seat} :
    s ∈ rowSeats numColumns row ↔ s.row = row ∧ s.col < numColumns := by
  constructor
  · intro h
    rcases List.mem_map.1 h with ⟨c, hc, rfl⟩
    exact ⟨rfl, List.mem_range.1 hc⟩
  · rintro ⟨h1, h2⟩
    refine List.mem_map.2 ⟨s.col, List.mem_range.2 h2, ?_⟩
    cases s
    simp_all

theorem mem_allSeats {numRows numColumns : Nat} {s : Seat} :
    s ∈ allSeats numRows numColumns ↔
      (1 ≤ s.row ∧ s.row ≤ numRows) ∧ s.col < numColumns := by
  unfold allSeats
  rw [List.mem_flatMap]
  constructor
  · rintro ⟨a, ha, hs⟩
    rw [List.mem_range'_1] at ha
    rcases mem_rowSeats.1 hs with ⟨h1, h2⟩
    exact ⟨⟨by omega, by omega⟩, h2⟩
  · rintro ⟨⟨h1, h2⟩, h3⟩
    exact ⟨s.row, List.mem_range'_1.2 ⟨h1, by omega⟩, mem_rowSeats.2 ⟨rfl, h3⟩⟩

theorem rowSeats_nodup (numColumns row : Nat) : (rowSeats numColumns row).Nodup := by
  refine List.Nodup.map ?_ (List.nodup_range _)
  intro a b h
  simpa using congrArg Seat.col h

theorem allSeats_nodup (numRows numColumns : Nat) :
    (allSeats numRows numColumns).Nodup := by
  rw [allSeats, List.nodup_flatMap]
  refine ⟨fun a _ => rowSeats_nodup _ _, ?_⟩
  refine List.Pairwise.imp ?_ (List.nodup_range' _ _)
  intro a b hne s hsa hsb
  exact hne ((mem_rowSeats.1 hsa).1 ▸ (mem_rowSeats.1 hsb).1)

theorem countP_row_rowSeats (r numColumns row : Nat) :
    (rowSeats numColumns row).countP (fun s => decide (s.row = r)) =
      if row = r then numColumns else 0 := by
  rw [rowSeats, List.countP_map]
  by_cases h : row = r
  · subst h
    simp [Function.comp_def]
  · simp [Function.comp_def, h]

theorem sum_map_ite_count (r v : Nat) (l : List Nat) :
    (l.map (fun a => if a = r then v else 0)).sum = v * l.count r := by
  induction l with
  | nil => simp
  | cons a t ih =>
    by_cases h : a = r <;> simp [h, ih, List.count_cons] <;> ring

theorem countP_row_allSeats (r numRows numColumns : Nat)
    (h1 : 1 ≤ r) (h2 : r ≤ numRows) :
    (allSeats numRows numColumns).countP (fun s => decide (s.row = r)) = numColumns := by
  rw [allSeats, List.countP_flatMap]
  have hmap : (List.range' 1 numRows).map
        (fun a => (rowSeats numColumns a).countP (fun s => decide (s.row = r))) =
      (List.range' 1 numRows).map (fun a => if a = r then numColumns else 0) := by
    exact List.map_congr_left fun a _ => countP_row_rowSeats r numColumns a
  rw [show ((List.range' 1 numRows).map
        (List.countP (fun s => decide (s.row = r)) ∘ rowSeats numColumns)) =
      (List.range' 1 numRows).map
        (fun a => (rowSeats numColumns a).countP (fun s => decide (s.row = r))) from rfl]
  rw [hmap, sum_map_ite_count]
  have hmem : r ∈ List.range' 1 numRows := List.mem_range'_1.2 ⟨h1, by omega⟩
  rw [List.count_eq_one_of_mem (List.nodup_range' _ _) hmem]
  omega

/-!
## The row-completion extra-luggage rule
-/

/-- How many passengers of row `r` in the given order trigger the
last-in-row extra-luggage branch, replayed from occupancy `seated`. -/
def lastInRowFireCount (r numColumns : Nat) : List Seat → List Seat → Nat
  | [], _ => 0
  | s :: rest, seated =>
    (if s.row = r ∧ isLastPassengerInRow s seated numColumns then 1 else 0)
      + lastInRowFireCount r numColumns rest (insertSeat seated s)

theorem lastInRowFireCount_eq (r numColumns : Nat) (rest : List Seat) :
    ∀ seated : List Seat, (seated ++ rest).Nodup →
      seated.countP (fun s => decide (s.row = r)) +
          rest.countP (fun s => decide (s.row = r)) = numColumns →
      lastInRowFireCount r numColumns rest seated =
        if rest.countP (fun s => decide (s.row = r)) = 0 then 0 else 1 := by
  induction rest with
  | nil =>
    intro seated _ _
    simp [lastInRowFireCount]
  | cons s rest ih =>
    intro seated hnd htot
    have hs : s ∉ seated := by
      rw [List.nodup_append] at hnd
      exact fun h => hnd.2.2 h (List.mem_cons_self s rest)
    have hins : insertSeat seated s = seated ++ [s] := by simp [insertSeat, hs]
    have hnd2 : ((seated ++ [s]) ++ rest).Nodup := by
      rw [List.append_assoc, List.singleton_append]
      exact hnd
    rw [List.countP_cons] at htot
    by_cases hr : s.row = r
    · have hcS : (seated ++ [s]).countP (fun x => decide (x.row = r)) =
          seated.countP (fun x => decide (x.row = r)) + 1 := by
        simp [List.countP_append, hr]
      simp [hr] at htot
      by_cases h0 : rest.countP (fun x => decide (x.row = r)) = 0
      · have hfire : isLastPassengerInRow s seated numColumns = true := by
          simp only [isLastPassengerInRow, hr, decide_eq_true_eq]
          omega
        have hrec := ih (seated ++ [s]) hnd2 (by omega)
        rw [h0] at hrec
        simp only [lastInRowFireCount, hins, hrec]
        simp [hr, hfire, List.countP_cons]
      · have hfire : isLastPassengerInRow s seated numColumns = false := by
          simp only [isLastPassengerInRow, hr, decide_eq_false_iff_not]
          omega
        have hrec := ih (seated ++ [s]) hnd2 (by omega)
        simp only [if_neg h0] at hrec
        simp only [lastInRowFireCount, hins, hrec]
        simp [hfire, List.countP_cons, hr]
    · simp [hr] at htot
      have hcS : (seated ++ [s]).countP (fun x => decide (x.row = r)) =
          seated.countP (fun x => decide (x.row = r)) := by
        simp [List.countP_append, hr]
      have hrec := ih (seated ++ [s]) hnd2 (by omega)
      simp only [lastInRowFireCount, hins, hrec]
      simp [hr, List.countP_cons]

/-- C10: the total decomposes into per-passenger costs whose third summand is
one exponential extra-luggage delay with mean `TIME_EXTRA_LUGGAGE = 15`,
added exactly when the seat completes its row (seated-in-row + 1 equals the
number of columns); and for a full-cabin boarding order this row-completion
branch fires exactly once for every row. -/
theorem C10_extra_luggage_once_per_row (numRows numColumns : Nat)
    (boardingOrder : List Seat) (exps : Nat → ℚ) (r : Nat)
    (hperm : boardingOrder.Perm (allSeats numRows numColumns))
    (hr1 : 1 ≤ r) (hr2 : r ≤ numRows) (hc : 1 ≤ numColumns) :
    simulateAisleBoarding boardingOrder numRows numColumns exps =
      (costList exps numColumns boardingOrder [] 0).sum
    ∧ lastInRowFireCount r numColumns boardingOrder [] = 1 := by
  refine ⟨simulateAisleBoarding_eq_costSum _ _ _ _, ?_⟩
  have hnd : boardingOrder.Nodup := hperm.nodup_iff.2 (allSeats_nodup _ _)
  have hcnt : boardingOrder.countP (fun s => decide (s.row = r)) = numColumns := by
    rw [hperm.countP_eq]
    exact countP_row_allSeats r numRows numColumns hr1 hr2
  have h := lastInRowFireCount_eq r numColumns boardingOrder [] (by simpa using hnd)
    (by simpa using hcnt)
  rw [h, hcnt, if_neg (by omega)]

/-- C10 witness: the one-seat cabin boarded in its only possible order. -/
theorem C10_extra_luggage_once_per_row_witness :
    simulateAisleBoarding (allSeats 1 1) 1 1 (fun _ => 1) =
      (costList (fun _ => 1) 1 (allSeats 1 1) [] 0).sum
    ∧ lastInRowFireCount 1 1 (allSeats 1 1) [] = 1 :=
  C10_extra_luggage_once_per_row 1 1 (allSeats 1 1) (fun _ => 1) 1
    (List.Perm.refl _) (by decide) (by decide) (by decide)

/-!
## The boarding order is a permutation of the cabin's seats
-/

theorem count_filter_ite {α : Type} [DecidableEq α] (p : α → Bool) (b : α) (l : List α) :
    List.count b (List.filter p l) = if p b then List.count b l else 0 := by
  induction l with
  | nil => simp
  | cons a t ih =>
    by_cases hpa : p a
    · by_cases hab : a = b
      · subst hab
        simp [hpa, List.count_cons, ih]
      · simp [hpa, List.count_cons, ih, hab]
    · by_cases hab : a = b
      · subst hab
        simp [hpa, List.count_cons, ih]
      · simp [hpa, List.count_cons, ih, hab]

theorem seatPriority_cases (c : Char) :
    seatPriority c = 1 ∨ seatPriority c = 2 ∨ seatPriority c = 3 := by
  unfold seatPriority
  split_ifs <;> simp

/-- Splitting any seat list into the three priority tiers, tier by tier,
permutes the list. -/
theorem tier_partition_perm (l : List Seat) :
    ([1, 2, 3].flatMap fun p =>
        l.filter fun s => decide (seatPriority (letterOf s.col) = p)).Perm l := by
  rw [List.perm_iff_count]
  intro s
  simp only [List.flatMap_cons, List.flatMap_nil, List.count_append, List.append_nil]
  rw [count_filter_ite, count_filter_ite, count_filter_ite]
  rcases seatPriority_cases (letterOf s.col) with h | h | h <;> simp [h]

/-- Exchanging the order of two nested flatMaps permutes the result. -/
theorem flatMap_flatMap_perm {α β γ : Type} (l1 : List α) (l2 : List β)
    (g : α → β → List γ) :
    (l1.flatMap fun a => l2.flatMap fun b => g a b).Perm
      (l2.flatMap fun b => l1.flatMap fun a => g a b) := by
  induction l1 with
  | nil => simp
  | cons a t ih =>
    simp only [List.flatMap_cons]
    refine List.Perm.trans (List.Perm.append_left _ ih) ?_
    exact List.flatMap_append_perm l2 (fun b => g a b) (fun b => t.flatMap fun a => g a b)

theorem seatsInRow_allSeats {numRows numColumns row : Nat}
    (h1 : 1 ≤ row) (h2 : row ≤ numRows) :
    seatsInRow (allSeats numRows numColumns) numColumns row = rowSeats numColumns row := by
  rw [seatsInRow, List.filter_eq_self]
  intro s hs
  rcases mem_rowSeats.1 hs with ⟨hr, hc⟩
  simp only [decide_eq_true_eq]
  exact mem_allSeats.2 ⟨⟨by omega, by omega⟩, hc⟩

theorem tierSeatsInRow_allSeats {numRows numColumns priority row : Nat}
    (h1 : 1 ≤ row) (h2 : row ≤ numRows) :
    tierSeatsInRow (allSeats numRows numColumns) numColumns priority row =
      (rowSeats numColumns row).filter
        (fun s => decide (seatPriority (letterOf s.col) = priority)) := by
  rw [tierSeatsInRow, List.filter_eq_self]
  intro s hs
  rcases mem_rowSeats.1 (List.mem_of_mem_filter hs) with ⟨hr, hc⟩
  simp only [decide_eq_true_eq]
  exact mem_allSeats.2 ⟨⟨by omega, by omega⟩, hc⟩

theorem flatMap_ite_eq_filter_flatMap {α β : Type} (l : List α) (P : α → Prop)
    [DecidablePred P] (f : α → List β) :
    (l.flatMap fun a => if P a then f a else []) =
      (l.filter fun a => decide (P a)).flatMap f := by
  induction l with
  | nil => rfl
  | cons a t ih => by_cases h : P a <;> simp [h, ih]

/-- One window-middle-aisle-style pass over a list of in-range rows visits a
permutation of those rows' seats. -/
theorem tier_pass_perm (numRows numColumns : Nat) (L : List Nat)
    (hL : ∀ row ∈ L, 1 ≤ row ∧ row ≤ numRows) :
    ([1, 2, 3].flatMap fun p => L.flatMap fun row =>
        tierSeatsInRow (allSeats numRows numColumns) numColumns p row).Perm
      (L.flatMap (rowSeats numColumns)) := by
  have step1 : ([1, 2, 3].flatMap fun p => L.flatMap fun row =>
        tierSeatsInRow (allSeats numRows numColumns) numColumns p row).Perm
      ([1, 2, 3].flatMap fun p => L.flatMap fun row =>
        (rowSeats numColumns row).filter
          (fun s => decide (seatPriority (letterOf s.col) = p))) := by
    refine List.Perm.flatMap_left _ ?_
    intro p _
    refine List.Perm.flatMap_left _ ?_
    intro row hrow
    rw [tierSeatsInRow_allSeats (hL row hrow).1 (hL row hrow).2]
  have step2 : ([1, 2, 3].flatMap fun p => L.flatMap fun row =>
        (rowSeats numColumns row).filter
          (fun s => decide (seatPriority (letterOf s.col) = p))).Perm
      (L.flatMap fun row => [1, 2, 3].flatMap fun p =>
        (rowSeats numColumns row).filter
          (fun s => decide (seatPriority (letterOf s.col) = p))) :=
    flatMap_flatMap_perm _ _ _
  have step3 : (L.flatMap fun row => [1, 2, 3].flatMap fun p =>
        (rowSeats numColumns row).filter
          (fun s => decide (seatPriority (letterOf s.col) = p))).Perm
      (L.flatMap (rowSeats numColumns)) :=
    List.Perm.flatMap_left _ (fun row _ => tier_partition_perm _)
  exact (step1.trans step2).trans step3

theorem backToFrontBoarding_perm (numRows numColumns : Nat) :
    (backToFrontBoarding (allSeats numRows numColumns) numRows numColumns).Perm
      (allSeats numRows numColumns) := by
  rw [backToFrontBoarding]
  have step1 : ((List.range' 1 numRows).reverse.flatMap
        (seatsInRow (allSeats numRows numColumns) numColumns)).Perm
      ((List.range' 1 numRows).reverse.flatMap (rowSeats numColumns)) := by
    refine List.Perm.flatMap_left _ ?_
    intro row hrow
    rw [List.mem_reverse, List.mem_range'_1] at hrow
    rw [seatsInRow_allSeats (by omega) (by omega)]
  exact step1.trans ((List.reverse_perm _).flatMap_right (rowSeats numColumns))

theorem windowMiddleAisleBoarding_perm (numRows numColumns : Nat) :
    (windowMiddleAisleBoarding (allSeats numRows numColumns) numRows numColumns).Perm
      (allSeats numRows numColumns) := by
  rw [windowMiddleAisleBoarding]
  refine tier_pass_perm numRows numColumns _ ?_
  intro row hrow
  rw [List.mem_range'_1] at hrow
  omega

theorem steffenBoarding_perm (numRows numColumns : Nat) :
    (steffenBoarding (allSeats numRows numColumns) numRows numColumns).Perm
      (allSeats numRows numColumns) := by
  rw [steffenBoarding]
  simp only [flatMap_ite_eq_filter_flatMap]
  have hbound : ∀ (q : Nat → Bool), ∀ row ∈ (List.range' 1 numRows).reverse.filter q,
      1 ≤ row ∧ row ≤ numRows := by
    intro q row hrow
    have hm := List.mem_of_mem_filter hrow
    rw [List.mem_reverse, List.mem_range'_1] at hm
    omega
  have hpass := List.Perm.append
    (tier_pass_perm numRows numColumns
      ((List.range' 1 numRows).reverse.filter (fun row => decide (row % 2 = 1))) (hbound _))
    (tier_pass_perm numRows numColumns
      ((List.range' 1 numRows).reverse.filter (fun row => decide (row % 2 = 0))) (hbound _))
  refine hpass.trans ?_
  rw [← List.flatMap_append]
  have hev : (List.range' 1 numRows).reverse.filter (fun row => decide (row % 2 = 0)) =
      (List.range' 1 numRows).reverse.filter (fun row => !(decide (row % 2 = 1))) := by
    refine List.filter_congr ?_
    intro a _
    rcases Nat.mod_two_eq_zero_or_one a with h | h <;> simp [h]
  rw [hev]
  refine List.Perm.flatMap_right _ ?_
  exact (List.filter_append_perm _ _).trans (List.reverse_perm _)

theorem rowRandom_enumFrom_perm {α β : Type} (l : List α) (n : Nat)
    (f : Nat → α → List β) (g : α → List β)
    (h : ∀ i a, a ∈ l → (f i a).Perm (g a)) :
    ((l.enumFrom n).flatMap fun p => f p.1 p.2).Perm (l.flatMap g) := by
  induction l generalizing n with
  | nil => simp
  | cons a t ih =>
    simp only [List.enumFrom, List.flatMap_cons]
    exact List.Perm.append (h n a (List.mem_cons_self a t))
      (ih (n + 1) (fun i x hx => h i x (List.mem_cons_of_mem a hx)))

theorem rowRandomBoarding_perm (src : RandomSource) (numRows numColumns : Nat) :
    (rowRandomBoarding src (allSeats numRows numColumns) numRows numColumns).Perm
      (allSeats numRows numColumns) := by
  rw [rowRandomBoarding]
  have hrowsperm : (src.shuffleRows 0 (List.range' 1 numRows)).Perm
      (List.range' 1 numRows) := src.shuffleRows_perm 0 _
  have hmem : ∀ row ∈ src.shuffleRows 0 (List.range' 1 numRows),
      1 ≤ row ∧ row ≤ numRows := by
    intro row hrow
    have hr := hrowsperm.mem_iff.1 hrow
    rw [List.mem_range'_1] at hr
    omega
  have step1 : (((src.shuffleRows 0 (List.range' 1 numRows)).enumFrom 0).flatMap
        fun p => src.shuffleSeats p.1
          (seatsInRow (allSeats numRows numColumns) numColumns p.2)).Perm
      ((src.shuffleRows 0 (List.range' 1 numRows)).flatMap (rowSeats numColumns)) := by
    refine rowRandom_enumFrom_perm _ 0
      (fun i a => src.shuffleSeats i (seatsInRow (allSeats numRows numColumns) numColumns a))
      (rowSeats numColumns) ?_
    intro i row hrow
    refine List.Perm.trans (src.shuffleSeats_perm i _) ?_
    rw [seatsInRow_allSeats (hmem row hrow).1 (hmem row hrow).2]
  exact step1.trans (hrowsperm.flatMap_right (rowSeats numColumns))

/-- For every method and cabin shape, the generated boarding order permutes
the full seat grid. -/
theorem boardingOrderFor_perm (method : BoardingMethod) (src : RandomSource)
    (numRows numColumns : Nat) :
    (boardingOrderFor method numRows numColumns src).Perm
      (allSeats numRows numColumns) := by
  cases method with
  | RANDOM => exact src.shuffleSeats_perm 0 _
  | ROW_RANDOM => exact rowRandomBoarding_perm src numRows numColumns
  | BACK_TO_FRONT => exact backToFrontBoarding_perm numRows numColumns
  | WINDOW_MIDDLE_AISLE => exact windowMiddleAisleBoarding_perm numRows numColumns
  | STEFFEN => exact steffenBoarding_perm numRows numColumns

/-- C2: for every policy of the implementation's enumeration and every cabin
shape with rows in [1,50] and columns in [2,26], the boarding order produced
by the sequencer step of `simulate_boarding_time` is a permutation of
exactly the `rows * columns` cabin seats — every seat appears, no seat
appears twice — regardless of randomization. -/
theorem C2_boarding_order_is_permutation (method : BoardingMethod)
    (src : RandomSource) (numRows numColumns : Nat)
    (h1 : 1 ≤ numRows) (h2 : numRows ≤ 50) (h3 : 2 ≤ numColumns) (h4 : numColumns ≤ 26) :
    (boardingOrderFor method numRows numColumns src).Perm (allSeats numRows numColumns)
    ∧ (boardingOrderFor method numRows numColumns src).Nodup := by
  have hperm := boardingOrderFor_perm method src numRows numColumns
  exact ⟨hperm, hperm.nodup_iff.2 (allSeats_nodup _ _)⟩

/-- C2 witness: the Steffen order of a 2-row, 2-column cabin. -/
theorem C2_boarding_order_is_permutation_witness :
    (boardingOrderFor .STEFFEN 2 2 idRandomSource).Perm (allSeats 2 2)
    ∧ (boardingOrderFor .STEFFEN 2 2 idRandomSource).Nodup :=
  C2_boarding_order_is_permutation .STEFFEN idRandomSource 2 2
    (by decide) (by decide) (by decide) (by decide)

/-!
## Degenerate cabins
-/

theorem boardingOrderFor_one_seat (method : BoardingMethod) (src : RandomSource) :
    boardingOrderFor method 1 1 src = [⟨1, 0⟩] := by
  have h := boardingOrderFor_perm method src 1 1
  have hall : allSeats 1 1 = [⟨1, 0⟩] := by decide
  rw [hall] at h
  exact List.perm_singleton.1 h

/-- C4 (corrected): for a 1-row, 1-column cabin and every policy,
`simulate_boarding_time` returns one luggage draw (mean 30) plus one
last-in-row extra-luggage draw (mean 15), with zero blocking delay. -/
theorem C4_one_seat_cabin (method : BoardingMethod) (src : RandomSource) :
    simulate_boarding_time method 1 1 src =
      TIME_LUGGAGE * src.exps 0 + TIME_EXTRA_LUGGAGE * src.exps 1 := by
  rw [simulate_boarding_time, boardingOrderFor_one_seat]
  simp [simulateAisleBoarding, boardOne, countBlockingPassengers,
    isLastPassengerInRow, insertSeat]

/-- C4 counterexample: for the one-seat cabin with every draw at its mean,
the total is 45, not the single luggage draw of 30 the claim describes —
the extra-luggage draw also contributes. -/
theorem C4_counterexample :
    simulate_boarding_time .RANDOM 1 1 idRandomSource ≠
      TIME_LUGGAGE * idRandomSource.exps 0 := by
  norm_num [simulate_boarding_time, simulateAisleBoarding, boardingOrderFor,
    randomBoarding, allSeats, rowSeats, boardOne, idRandomSource,
    countBlockingPassengers, isLastPassengerInRow, insertSeat, List.range_succ,
    TIME_LUGGAGE, TIME_EXTRA_LUGGAGE, TIME_SITTING_BLOCKED, TIME_PER_BLOCKING_PERSON]

/-- C5 (corrected): a cabin with zero rows or zero columns does not signal
an error — `simulate_boarding_time` silently returns a total of 0.0 for
every policy (the empty seat list yields an empty order).  The trailing
`raise ValueError` fires only for a method value outside the enum, which is
unrepresentable for enum-typed input. -/
theorem C5_zero_dims_return_silently (method : BoardingMethod) (src : RandomSource)
    (numRows numColumns : Nat) (h : numRows = 0 ∨ numColumns = 0) :
    simulate_boarding_time method numRows numColumns src = 0 := by
  have horder : boardingOrderFor method numRows numColumns src = [] := by
    have hperm := boardingOrderFor_perm method src numRows numColumns
    have hnil : allSeats numRows numColumns = [] := by
      rcases h with h | h <;> subst h
      · rfl
      · simp [allSeats, rowSeats]
    rw [hnil] at hperm
    exact List.perm_nil.1 hperm
  rw [simulate_boarding_time, horder]
  rfl

/-- C5 witness: three rows and zero columns under the Steffen policy. -/
theorem C5_zero_dims_return_silently_witness :
    simulate_boarding_time .STEFFEN 3 0 idRandomSource = 0 :=
  C5_zero_dims_return_silently .STEFFEN idRandomSource 3 0 (Or.inr rfl)

/-- C5 counterexample: calling with zero rows silently returns the value 0.0
instead of signalling an invalid-argument error — the source contains no
validation of `num_rows`/`num_columns` at all. -/
theorem C5_counterexample :
    simulate_boarding_time .RANDOM 0 6 idRandomSource = 0 := by
  norm_num [simulate_boarding_time, simulateAisleBoarding, boardingOrderFor,
    randomBoarding, allSeats, idRandomSource]

/-!
## The policy enumeration
-/

/-- `BoardingMethod.all` lists every member of the enum. -/
theorem BoardingMethod.mem_all (m : BoardingMethod) : m ∈ BoardingMethod.all := by
  cases m <;> decide

/-- C6 (corrected): the Boarding Policy type is an enumerated variant with
exactly the five values Random, Row Random, Back to Front,
Window-Middle-Aisle and Steffen Algorithm.  No FrontToBack variant exists,
so there is no mirror-of-BackToFront policy. -/
theorem C6_policy_enum_has_five_values :
    (∀ m : BoardingMethod, m ∈ BoardingMethod.all)
    ∧ BoardingMethod.all.Nodup
    ∧ BoardingMethod.all.length = 5
    ∧ BoardingMethod.all.map BoardingMethod.value =
        ["Random", "Row Random", "Back to Front", "Window-Middle-Aisle",
          "Steffen Algorithm"] :=
  ⟨BoardingMethod.mem_all, by decide, rfl, rfl⟩

/-- C6 counterexample: the policy type has five inhabitants, not six. -/
theorem C6_counterexample : Fintype.card BoardingMethod ≠ 6 := by decide

/-- C8 (corrected): each of the three structural policies that exist in the
enumeration — BackToFront, WindowMiddleAisle and Steffen — produces an
identical seat order for any two random sources: the generated sequence
never depends on any random draw.  (There is no FrontToBack policy.) -/
theorem C8_structural_policies_deterministic (numRows numColumns : Nat)
    (src1 src2 : RandomSource) :
    boardingOrderFor .BACK_TO_FRONT numRows numColumns src1 =
      boardingOrderFor .BACK_TO_FRONT numRows numColumns src2
    ∧ boardingOrderFor .WINDOW_MIDDLE_AISLE numRows numColumns src1 =
      boardingOrderFor .WINDOW_MIDDLE_AISLE numRows numColumns src2
    ∧ boardingOrderFor .STEFFEN numRows numColumns src1 =
      boardingOrderFor .STEFFEN numRows numColumns src2 :=
  ⟨rfl, rfl, rfl⟩

/-- C8 counterexample: no member of the (complete, by
`BoardingMethod.mem_all`) enumeration carries the FrontToBack policy the
claim quantifies over — its natural enum string "Front to Back" belongs to
no member. -/
theorem C8_counterexample :
    (BoardingMethod.all.map BoardingMethod.value).contains "Front to Back" = false := by
  decide

/-!
## The window-middle-aisle tiers
-/

theorem flatMap_congr_mem {α β : Type} {f g : α → List β} :
    ∀ l : List α, (∀ a ∈ l, f a = g a) → l.flatMap f = l.flatMap g := by
  intro l
  induction l with
  | nil => intro _; rfl
  | cons a t ih =>
    intro h
    simp only [List.flatMap_cons]
    rw [h a (List.mem_cons_self a t), ih (fun x hx => h x (List.mem_cons_of_mem a hx))]

/-- Modelled from the spec claim C7, for the canonical 6-column layout:
priority 1 for the first and last column (windows), 2 for the second and
second-to-last (middles), 3 for the two central columns (aisles). -/
def specPriority6 (c : Nat) : Nat :=
  if c = 0 ∨ c = 5 then 1 else if c = 1 ∨ c = 4 then 2 else 3

/-- Modelled from the spec claim C7: all seats in increasing priority,
within each tier in row order front to back, then in column order. -/
def specWindowMiddleAisleOrder6 (numRows : Nat) : List Seat :=
  [1, 2, 3].flatMap fun p => (List.range' 1 numRows).flatMap fun row =>
    ((List.range 6).filter fun c => decide (specPriority6 c = p)).map
      (fun c => ⟨row, c⟩)

/-- C7 (corrected): the implementation hardcodes the letter-priority table
A,F → 1; B,E → 2; every other letter → 3, so the claim's window/middle/aisle
description holds exactly for 6-column cabins: there the produced order is
the claim's order (increasing priority; within a tier, rows front to back,
then column order), and the table coincides with the claim's
first/last–second/second-to-last–central assignment. -/
theorem C7_window_middle_aisle_structure :
    (∀ numRows : Nat,
        windowMiddleAisleBoarding (allSeats numRows 6) numRows 6 =
          specWindowMiddleAisleOrder6 numRows)
    ∧ (∀ c : Nat, c < 6 → seatPriority (letterOf c) = specPriority6 c) := by
  constructor
  · intro numRows
    rw [windowMiddleAisleBoarding, specWindowMiddleAisleOrder6]
    refine flatMap_congr_mem _ ?_
    intro p _
    refine flatMap_congr_mem _ ?_
    intro row hrow
    rw [List.mem_range'_1] at hrow
    rw [tierSeatsInRow_allSeats (by omega) (by omega)]
    rw [rowSeats, List.filter_map]
    congr 1
  · intro c hc
    interval_cases c <;> decide

/-- C7 witness: the 2-row, 6-column cabin, and the last column letter F. -/
theorem C7_window_middle_aisle_structure_witness :
    windowMiddleAisleBoarding (allSeats 2 6) 2 6 = specWindowMiddleAisleOrder6 2
    ∧ seatPriority (letterOf 5) = specPriority6 5 :=
  ⟨C7_window_middle_aisle_structure.1 2,
    C7_window_middle_aisle_structure.2 5 (by decide)⟩

/-- C7 counterexample: in a 1-row, 8-column cabin the claim's tiers make the
windows the first and last columns (0 and 7), so the order would begin
01A, 01H; the implementation's fixed table keeps F (column 5) in tier 1 and
begins 01A, 01F instead. -/
theorem C7_counterexample :
    (windowMiddleAisleBoarding (allSeats 1 8) 1 8).take 2 = [⟨1, 0⟩, ⟨1, 5⟩]
    ∧ [(⟨1, 0⟩ : Seat), ⟨1, 5⟩] ≠ [⟨1, 0⟩, ⟨1, 7⟩] :=
  ⟨by decide, by decide⟩
